import Mathlib

/-!
Verification of the layer/category state-management engine of the
land-use / FRA WebGIS scripts (src/static/script.js,
src/static/fra_webgis_script.js, src/unnamed/part_000).

The JavaScript sources are shallowly embedded: features, payloads and the
mutable per-instance state (this.layers, the set of layers attached to the
Leaflet map, the DOM count elements and layer checkboxes) become explicit
Lean data, and each method becomes a state-transforming function.
-/

/-- A GeoJSON feature as the scripts read it: only the properties the
grouping code touches are modelled.  `cls` is properties.class (used by
script.js and the India script), `fra_type` is properties.fra_type (used by
the FRA script); either may be absent.  `fid` stands for the rest of the
feature (geometry, ids) and makes distinct features distinguishable. -/
structure Feature where
  fid : Nat
  cls : Option String := none
  fra_type : Option String := none
  deriving DecidableEq, Repr

/-- JavaScript coerces an object property key to a string: a missing
property reads as undefined, which used as a key is the literal string
"undefined". -/
def jsKey : Option String → String
  | none => "undefined"
  | some s => s

/-- One step of the grouping loops: push feature f onto the bucket keyed k,
creating the bucket at the end (JS object insertion order) if absent.
Mirrors the body of the forEach in IndiaLandUseMap.processData
(part_000 lines 257-263) and FRAWebGIS.processClaimsData (lines 256-262). -/
def addToBucket (k : String) (f : Feature) :
    List (String × List Feature) → List (String × List Feature)
  | [] => [(k, [f])]
  | (k', g) :: rest =>
    if k' = k then (k', g ++ [f]) :: rest else (k', g) :: addToBucket k f rest

/-- The on-demand grouping used by IndiaLandUseMap.processData and
FRAWebGIS.processClaimsData: fold the features left to right, keying each
by the given property. -/
def groupByKey (key : Feature → String) (fs : List Feature) :
    List (String × List Feature) :=
  fs.foldl (fun acc f => addToBucket (key f) f acc) []

/-- IndiaLandUseMap.processData groups by properties.class (part_000
lines 254-263). -/
def groupIndia (fs : List Feature) : List (String × List Feature) :=
  groupByKey (fun f => jsKey f.cls) fs

/-- FRAWebGIS.processClaimsData groups by properties.fra_type
(fra_webgis_script.js lines 253-262). -/
def groupFRA (fs : List Feature) : List (String × List Feature) :=
  groupByKey (fun f => jsKey f.fra_type) fs

/-- The three preset buckets of LandUseMap.processData (script.js
lines 152-156). -/
def mvpClasses : List String := ["water", "forest", "agriculture"]

/-- LandUseMap.processData grouping (script.js lines 150-163):
featuresByClass starts with the three preset (empty, hence truthy) arrays
and a feature is pushed only when featuresByClass[className] is truthy,
i.e. only when its class is one of the presets; any other feature is
skipped. -/
def groupMVP (fs : List Feature) : List (String × List Feature) :=
  fs.foldl
    (fun acc f =>
      if jsKey f.cls ∈ mvpClasses then addToBucket (jsKey f.cls) f acc else acc)
    (mvpClasses.map fun k => (k, []))

/- Basic lemmas about addToBucket and groupByKey. -/

theorem addToBucket_keys (k : String) (f : Feature)
    (acc : List (String × List Feature)) :
    (addToBucket k f acc).map Prod.fst =
      if k ∈ acc.map Prod.fst then acc.map Prod.fst
      else acc.map Prod.fst ++ [k] := by
  induction acc with
  | nil => simp [addToBucket]
  | cons kg rest ih =>
    obtain ⟨k', g⟩ := kg
    by_cases h : k' = k
    · subst h
      simp [addToBucket]
    · by_cases hm : k ∈ rest.map Prod.fst
      · simp [addToBucket, h, ih, hm, Ne.symm h]
      · simp [addToBucket, h, ih, hm, Ne.symm h]

theorem addToBucket_keys_nodup (k : String) (f : Feature)
    (acc : List (String × List Feature))
    (hnd : (acc.map Prod.fst).Nodup) :
    ((addToBucket k f acc).map Prod.fst).Nodup := by
  rw [addToBucket_keys]
  by_cases h : k ∈ acc.map Prod.fst
  · simpa [h] using hnd
  · simp only [h, if_false]
    refine List.Nodup.append hnd (List.nodup_singleton k) ?_
    intro a ha hak
    simp at hak
    subst hak
    exact h ha

theorem addToBucket_correct (key : Feature → String) (f : Feature)
    (acc : List (String × List Feature))
    (hc : ∀ kg ∈ acc, ∀ x ∈ kg.2, key x = kg.1) :
    ∀ kg ∈ addToBucket (key f) f acc, ∀ x ∈ kg.2, key x = kg.1 := by
  induction acc with
  | nil =>
    intro kg hkg x hx
    simp [addToBucket] at hkg
    subst hkg
    simp at hx
    subst hx
    rfl
  | cons kg0 rest ih =>
    obtain ⟨k', g⟩ := kg0
    intro kg hkg x hx
    by_cases h : k' = key f
    · subst h
      simp [addToBucket] at hkg
      rcases hkg with hkg | hkg
      · subst hkg
        simp at hx
        rcases hx with hx | hx
        · exact hc (key f, g) (by simp) x hx
        · subst hx; rfl
      · exact hc kg (by simp [hkg]) x hx
    · simp [addToBucket, h] at hkg
      rcases hkg with hkg | hkg
      · subst hkg
        exact hc (k', g) (by simp) x hx
      · exact ih (fun kg' hkg' => hc kg' (by simp [hkg'])) kg hkg x hx

theorem addToBucket_mem_self (k : String) (f : Feature)
    (acc : List (String × List Feature)) :
    ∃ g, (k, g) ∈ addToBucket k f acc ∧ f ∈ g := by
  induction acc with
  | nil => exact ⟨[f], by simp [addToBucket]⟩
  | cons kg0 rest ih =>
    obtain ⟨k', g⟩ := kg0
    by_cases h : k' = k
    · subst h
      exact ⟨g ++ [f], by simp [addToBucket]⟩
    · obtain ⟨g', hg', hf⟩ := ih
      exact ⟨g', by simp [addToBucket, h, hg'], hf⟩

theorem addToBucket_mem_mono (k : String) (f : Feature)
    (acc : List (String × List Feature)) (k' : String) (x : Feature)
    (h : ∃ g, (k', g) ∈ acc ∧ x ∈ g) :
    ∃ g, (k', g) ∈ addToBucket k f acc ∧ x ∈ g := by
  induction acc with
  | nil => simp at h
  | cons kg0 rest ih =>
    obtain ⟨k0, g0⟩ := kg0
    obtain ⟨g, hg, hx⟩ := h
    by_cases hk : k0 = k
    · subst hk
      simp at hg
      rcases hg with ⟨hg1, hg2⟩ | hg
      · subst hg1; subst hg2
        exact ⟨g ++ [f], by simp [addToBucket], by simp [hx]⟩
      · exact ⟨g, by simp [addToBucket, hg], hx⟩
    · simp at hg
      rcases hg with ⟨hg1, hg2⟩ | hg
      · subst hg1; subst hg2
        exact ⟨g, by simp [addToBucket, hk], hx⟩
      · obtain ⟨g', hg', hx'⟩ := ih ⟨g, hg, hx⟩
        exact ⟨g', by simp [addToBucket, hk, hg'], hx'⟩

theorem groupByKey_go_nodup (key : Feature → String) (fs : List Feature) :
    ∀ (acc : List (String × List Feature)), (acc.map Prod.fst).Nodup →
      ((fs.foldl (fun acc f => addToBucket (key f) f acc) acc).map Prod.fst).Nodup := by
  induction fs with
  | nil => intro acc h; exact h
  | cons f fs ih =>
    intro acc h
    exact ih _ (addToBucket_keys_nodup (key f) f acc h)

theorem groupByKey_go_correct (key : Feature → String) (fs : List Feature) :
    ∀ (acc : List (String × List Feature)),
      (∀ kg ∈ acc, ∀ x ∈ kg.2, key x = kg.1) →
      ∀ kg ∈ fs.foldl (fun acc f => addToBucket (key f) f acc) acc,
        ∀ x ∈ kg.2, key x = kg.1 := by
  induction fs with
  | nil => intro acc h; exact h
  | cons f fs ih =>
    intro acc h
    exact ih _ (addToBucket_correct key f acc h)

theorem groupByKey_go_mono (key : Feature → String) (fs : List Feature) :
    ∀ (acc : List (String × List Feature)) (k : String) (x : Feature),
      (∃ g, (k, g) ∈ acc ∧ x ∈ g) →
      ∃ g, (k, g) ∈ fs.foldl (fun acc f => addToBucket (key f) f acc) acc ∧ x ∈ g := by
  induction fs with
  | nil => intro acc k x h; exact h
  | cons f fs ih =>
    intro acc k x h
    exact ih _ k x (addToBucket_mem_mono (key f) f acc k x h)

theorem groupByKey_go_complete (key : Feature → String) (fs : List Feature) :
    ∀ (acc : List (String × List Feature)) (f : Feature), f ∈ fs →
      ∃ g, (key f, g) ∈ fs.foldl (fun acc f => addToBucket (key f) f acc) acc ∧ f ∈ g := by
  induction fs with
  | nil => intro acc f h; simp at h
  | cons f0 fs ih =>
    intro acc f h
    rcases List.mem_cons.mp h with h | h
    · subst h
      exact groupByKey_go_mono key fs _ (key f) f (addToBucket_mem_self (key f) f acc)
    · exact ih _ f h

theorem groupByKey_nodup (key : Feature → String) (fs : List Feature) :
    ((groupByKey key fs).map Prod.fst).Nodup :=
  groupByKey_go_nodup key fs [] (by simp)

theorem groupByKey_correct (key : Feature → String) (fs : List Feature) :
    ∀ kg ∈ groupByKey key fs, ∀ x ∈ kg.2, key x = kg.1 :=
  groupByKey_go_correct key fs [] (by simp)

theorem groupByKey_complete (key : Feature → String) (fs : List Feature) :
    ∀ f ∈ fs, ∃ g, (key f, g) ∈ groupByKey key fs ∧ f ∈ g :=
  fun f hf => groupByKey_go_complete key fs [] f hf

/- Lemmas about the fixed-bucket MVP grouping (script.js). -/

theorem groupMVP_go_keys (fs : List Feature) :
    ∀ (acc : List (String × List Feature)), acc.map Prod.fst = mvpClasses →
      ((fs.foldl (fun acc f =>
          if jsKey f.cls ∈ mvpClasses then addToBucket (jsKey f.cls) f acc else acc)
        acc).map Prod.fst) = mvpClasses := by
  induction fs with
  | nil => intro acc h; exact h
  | cons f fs ih =>
    intro acc h
    by_cases hm : jsKey f.cls ∈ mvpClasses
    · simp only [List.foldl_cons]
      rw [if_pos hm]
      refine ih _ ?_
      rw [addToBucket_keys, h]
      simp [hm]
    · simp only [List.foldl_cons]
      rw [if_neg hm]
      exact ih _ h

theorem groupMVP_keys (fs : List Feature) :
    (groupMVP fs).map Prod.fst = mvpClasses := by
  refine groupMVP_go_keys fs _ ?_
  simp [mvpClasses]

theorem groupMVP_go_correct (fs : List Feature) :
    ∀ (acc : List (String × List Feature)),
      (∀ kg ∈ acc, ∀ x ∈ kg.2, jsKey x.cls = kg.1) →
      ∀ kg ∈ fs.foldl (fun acc f =>
          if jsKey f.cls ∈ mvpClasses then addToBucket (jsKey f.cls) f acc else acc) acc,
        ∀ x ∈ kg.2, jsKey x.cls = kg.1 := by
  induction fs with
  | nil => intro acc h; exact h
  | cons f fs ih =>
    intro acc h
    by_cases hm : jsKey f.cls ∈ mvpClasses
    · simp only [List.foldl_cons]
      rw [if_pos hm]
      exact ih _ (addToBucket_correct (fun x => jsKey x.cls) f acc h)
    · simp only [List.foldl_cons]
      rw [if_neg hm]
      exact ih _ h

theorem groupMVP_correct (fs : List Feature) :
    ∀ kg ∈ groupMVP fs, ∀ x ∈ kg.2, jsKey x.cls = kg.1 := by
  refine groupMVP_go_correct fs _ ?_
  intro kg hkg x hx
  simp [mvpClasses] at hkg
  rcases hkg with h | h | h <;> (subst h; simp at hx)

theorem groupMVP_drops (fs : List Feature) (f : Feature)
    (h : jsKey f.cls ∉ mvpClasses) :
    ∀ kg ∈ groupMVP fs, f ∉ kg.2 := by
  intro kg hkg hf
  have hk := groupMVP_correct fs kg hkg f hf
  have : kg.1 ∈ (groupMVP fs).map Prod.fst := List.mem_map_of_mem Prod.fst hkg
  rw [groupMVP_keys] at this
  exact h (hk ▸ this)

theorem groupMVP_go_mono (fs : List Feature) :
    ∀ (acc : List (String × List Feature)) (k : String) (x : Feature),
      (∃ g, (k, g) ∈ acc ∧ x ∈ g) →
      ∃ g, (k, g) ∈ fs.foldl (fun acc f =>
          if jsKey f.cls ∈ mvpClasses then addToBucket (jsKey f.cls) f acc else acc) acc ∧
        x ∈ g := by
  induction fs with
  | nil => intro acc k x h; exact h
  | cons f fs ih =>
    intro acc k x h
    by_cases hm : jsKey f.cls ∈ mvpClasses
    · simp only [List.foldl_cons]
      rw [if_pos hm]
      exact ih _ k x (addToBucket_mem_mono (jsKey f.cls) f acc k x h)
    · simp only [List.foldl_cons]
      rw [if_neg hm]
      exact ih _ k x h

theorem groupMVP_go_complete (fs : List Feature) :
    ∀ (acc : List (String × List Feature)) (f : Feature), f ∈ fs →
      jsKey f.cls ∈ mvpClasses →
      ∃ g, (jsKey f.cls, g) ∈ fs.foldl (fun acc f =>
          if jsKey f.cls ∈ mvpClasses then addToBucket (jsKey f.cls) f acc else acc) acc ∧
        f ∈ g := by
  induction fs with
  | nil => intro acc f h; simp at h
  | cons f0 fs ih =>
    intro acc f h hm
    rcases List.mem_cons.mp h with h | h
    · subst h
      simp only [List.foldl_cons]
      rw [if_pos hm]
      exact groupMVP_go_mono fs _ (jsKey f.cls) f (addToBucket_mem_self (jsKey f.cls) f acc)
    · by_cases hm0 : jsKey f0.cls ∈ mvpClasses
      · simp only [List.foldl_cons]
        rw [if_pos hm0]
        exact ih _ f h hm
      · simp only [List.foldl_cons]
        rw [if_neg hm0]
        exact ih _ f h hm

theorem groupMVP_complete_known (fs : List Feature) (f : Feature)
    (hf : f ∈ fs) (hm : jsKey f.cls ∈ mvpClasses) :
    ∃ g, (jsKey f.cls, g) ∈ groupMVP fs ∧ f ∈ g :=
  groupMVP_go_complete fs _ f hf hm

/-- C1 counterexample: in LandUseMap.processData (script.js) the grouping
drops a feature whose class is not one of the three preset buckets.  The
feature with class "urban" appears in zero buckets — not in exactly one —
and the resulting buckets are the untouched presets. -/
theorem c1_classifier_counterexample :
    (groupMVP [Feature.mk 7 (some "urban") none]).countP
        (fun kg => decide (Feature.mk 7 (some "urban") none ∈ kg.2)) = 0 ∧
    groupMVP [Feature.mk 7 (some "urban") none] =
      [("water", []), ("forest", []), ("agriculture", [])] := by
  decide

/-- C1 (amended): in IndiaLandUseMap.processData and
FRAWebGIS.processClaimsData every feature lands in exactly one bucket:
bucket keys are pairwise distinct, every member of a bucket carries that
bucket's key as its literal category (a missing category reads as
"undefined"), and every input feature is present in the bucket keyed by its
literal category — never dropped.  In LandUseMap.processData (script.js),
however, only features whose class is one of water/forest/agriculture are
kept, each in the matching bucket; a feature with any other (or missing)
class is dropped from every bucket. -/
theorem c1_classifier_amended (fs : List Feature) :
    ((groupIndia fs).map Prod.fst).Nodup ∧
    (∀ kg ∈ groupIndia fs, ∀ f ∈ kg.2, jsKey f.cls = kg.1) ∧
    (∀ f ∈ fs, ∃ g, (jsKey f.cls, g) ∈ groupIndia fs ∧ f ∈ g) ∧
    ((groupFRA fs).map Prod.fst).Nodup ∧
    (∀ kg ∈ groupFRA fs, ∀ f ∈ kg.2, jsKey f.fra_type = kg.1) ∧
    (∀ f ∈ fs, ∃ g, (jsKey f.fra_type, g) ∈ groupFRA fs ∧ f ∈ g) ∧
    (∀ f ∈ fs, jsKey f.cls ∈ mvpClasses →
      ∃ g, (jsKey f.cls, g) ∈ groupMVP fs ∧ f ∈ g) ∧
    (∀ f : Feature, jsKey f.cls ∉ mvpClasses → ∀ kg ∈ groupMVP fs, f ∉ kg.2) :=
  ⟨groupByKey_nodup _ fs, groupByKey_correct _ fs, groupByKey_complete _ fs,
   groupByKey_nodup _ fs, groupByKey_correct _ fs, groupByKey_complete _ fs,
   fun f hf hm => groupMVP_complete_known fs f hf hm,
   fun f hm => groupMVP_drops fs f hm⟩

/-- Witness for C1: on the concrete collection with one water feature and
one feature with a missing class, the India grouping is evaluated and the
amended theorem is applied to it, discharging its membership hypotheses. -/
theorem c1_classifier_amended_witness :
    jsKey (Feature.mk 2 none none).cls = "undefined" ∧
    groupIndia [Feature.mk 1 (some "water") none, Feature.mk 2 none none] =
      [("water", [Feature.mk 1 (some "water") none]),
       ("undefined", [Feature.mk 2 none none])] :=
  ⟨(c1_classifier_amended
      [Feature.mk 1 (some "water") none, Feature.mk 2 none none]).2.1
      ("undefined", [Feature.mk 2 none none]) (by decide)
      (Feature.mk 2 none none) (by decide),
   by decide⟩

/-- A Leaflet path style as the scripts declare them.  Opacities are
recorded in tenths to stay in integer arithmetic: the literal 0.7 of the
sources becomes 7, 0.8 becomes 8. -/
structure Style where
  color : String
  fillColor : String
  fillOpacityTenths : Nat
  weight : Nat
  deriving DecidableEq, Repr

/-- JavaScript property lookup on an object literal, as an association
list: the first binding of the key wins, absence reads as undefined. -/
def lookupKey {β : Type} : List (String × β) → String → Option β
  | [], _ => none
  | (k', v) :: rest, k => if k' = k then some v else lookupKey rest k

theorem lookupKey_mem_pair {β : Type} (l : List (String × β)) (k : String)
    (v : β) (h : lookupKey l k = some v) : (k, v) ∈ l := by
  induction l with
  | nil => simp [lookupKey] at h
  | cons kv rest ih =>
    obtain ⟨k', v'⟩ := kv
    by_cases hk : k' = k
    · subst hk
      simp [lookupKey] at h
      simp [h]
    · simp [lookupKey, hk] at h
      exact List.mem_cons_of_mem _ (ih h)

theorem lookupKey_mem_values {β : Type} (l : List (String × β)) (k : String)
    (v : β) (h : lookupKey l k = some v) : v ∈ l.map Prod.snd :=
  List.mem_map_of_mem Prod.snd (lookupKey_mem_pair l k v h)

/-- FRAWebGIS constructor, this.fraTypeStyles (fra_webgis_script.js 15-19). -/
def fraTypeStyles : List (String × Style) :=
  [("IFR", ⟨"#007bff", "#007bff", 7, 2⟩),
   ("CFR", ⟨"#28a745", "#28a745", 7, 2⟩),
   ("CR", ⟨"#ffc107", "#ffc107", 7, 2⟩)]

/-- IndiaLandUseMap constructor, this.classStyles (part_000 15-27). -/
def classStylesIndia : List (String × Style) :=
  [("water", ⟨"#0066cc", "#0066cc", 7, 2⟩),
   ("forest_dense", ⟨"#00aa00", "#00aa00", 7, 2⟩),
   ("forest_open", ⟨"#66cc00", "#66cc00", 7, 2⟩),
   ("agriculture_irrigated", ⟨"#ffaa00", "#ffaa00", 7, 2⟩),
   ("agriculture_rainfed", ⟨"#ffcc66", "#ffcc66", 7, 2⟩),
   ("urban", ⟨"#cc0000", "#cc0000", 7, 2⟩),
   ("grassland", ⟨"#99cc00", "#99cc00", 7, 2⟩),
   ("wasteland", ⟨"#cc9900", "#cc9900", 7, 2⟩),
   ("wetland", ⟨"#006699", "#006699", 7, 2⟩),
   ("mangrove", ⟨"#009966", "#009966", 7, 2⟩),
   ("fra_area", ⟨"#9900cc", "#9900cc", 8, 3⟩)]

/-- LandUseMap constructor, this.classStyles (script.js 17-36). -/
def classStylesMVP : List (String × Style) :=
  [("water", ⟨"#0066cc", "#0066cc", 7, 2⟩),
   ("forest", ⟨"#00aa00", "#00aa00", 7, 2⟩),
   ("agriculture", ⟨"#ffaa00", "#ffaa00", 7, 2⟩)]

/-- Style resolution of FRAWebGIS.processClaimsData line 272:
this.fraTypeStyles[fraType] || this.fraTypeStyles.IFR — the short-circuit
falls back to the IFR entry when the lookup reads undefined. -/
def resolveStyleFRA (fraType : String) : Option Style :=
  match lookupKey fraTypeStyles fraType with
  | some s => some s
  | none => lookupKey fraTypeStyles "IFR"

/-- Style resolution of IndiaLandUseMap.processData line 269:
this.classStyles[className] || this.classStyles.fra_area. -/
def resolveStyleIndia (className : String) : Option Style :=
  match lookupKey classStylesIndia className with
  | some s => some s
  | none => lookupKey classStylesIndia "fra_area"

/-- Style resolution of LandUseMap.processData line 169:
this.classStyles[className], with no fallback. -/
def resolveStyleMVP (className : String) : Option Style :=
  lookupKey classStylesMVP className

/-- C8: every category's layer style is resolved by table lookup, and the
fallback is a defined entry of the table — resolution never yields an
absent style.  For the FRA and India scripts this holds for every category
string; for script.js, which has no fallback, every bucket key produced by
its grouping is one of the three preset classes, each present in its style
table, so the style it renders with is defined as well. -/
theorem c8_style_lookup_fallback :
    (∀ k : String, ∃ s, resolveStyleFRA k = some s ∧ s ∈ fraTypeStyles.map Prod.snd) ∧
    (∀ k : String, ∃ s, resolveStyleIndia k = some s ∧ s ∈ classStylesIndia.map Prod.snd) ∧
    (∀ fs : List Feature, ∀ kg ∈ groupMVP fs,
      ∃ s, resolveStyleMVP kg.1 = some s ∧ s ∈ classStylesMVP.map Prod.snd) := by
  refine ⟨fun k => ?_, fun k => ?_, fun fs kg hkg => ?_⟩
  · unfold resolveStyleFRA
    cases h : lookupKey fraTypeStyles k with
    | some s => exact ⟨s, rfl, lookupKey_mem_values _ _ _ h⟩
    | none => exact ⟨⟨"#007bff", "#007bff", 7, 2⟩, by decide, by decide⟩
  · unfold resolveStyleIndia
    cases h : lookupKey classStylesIndia k with
    | some s => exact ⟨s, rfl, lookupKey_mem_values _ _ _ h⟩
    | none => exact ⟨⟨"#9900cc", "#9900cc", 8, 3⟩, by decide, by decide⟩
  · have hk : kg.1 ∈ (groupMVP fs).map Prod.fst := List.mem_map_of_mem Prod.fst hkg
    rw [groupMVP_keys] at hk
    simp [mvpClasses] at hk
    rcases hk with hk | hk | hk
    · exact ⟨⟨"#0066cc", "#0066cc", 7, 2⟩, by rw [hk]; decide, by decide⟩
    · exact ⟨⟨"#00aa00", "#00aa00", 7, 2⟩, by rw [hk]; decide, by decide⟩
    · exact ⟨⟨"#ffaa00", "#ffaa00", 7, 2⟩, by rw [hk]; decide, by decide⟩

/-- Witness for C8: the theorem applied at the unknown category "mangrove
swamp" (FRA falls back to the IFR style), at "urban" for the India table,
and at the water bucket of a concrete script.js grouping. -/
theorem c8_style_lookup_fallback_witness :
    (resolveStyleFRA "mangrove swamp").isSome = true ∧
    (resolveStyleMVP "water").isSome = true := by
  constructor
  · obtain ⟨s, hs, _⟩ := c8_style_lookup_fallback.1 "mangrove swamp"
    rw [hs]
    rfl
  · obtain ⟨s, hs, _⟩ :=
      c8_style_lookup_fallback.2.2 [Feature.mk 1 (some "water") none]
        ("water", [Feature.mk 1 (some "water") none]) (by decide)
    have hs' : resolveStyleMVP "water" = some s := hs
    rw [hs']
    rfl

/-- A renderable layer: the L.geoJSON object created for one category from
its bucket of features.  cat records which category the layer was built
for; feats is its (immutable) feature membership. -/
structure Layer where
  cat : String
  feats : List Feature
  deriving DecidableEq, Repr

/-- The mutable state the scripts keep around a map instance: this.layers
(category to layer), the set of layers currently attached to the Leaflet
map (what map.hasLayer reports), the per-category DOM count elements
(count-<key>, created by IndiaLandUseMap.loadLayers with initial text 0),
and the layer checkboxes with their checked flags (layer-<key>). -/
structure GISState where
  layers : List (String × Layer)
  attached : List Layer
  counts : List (String × Nat)
  checkboxes : List (String × Bool)
  deriving DecidableEq, Repr

/-- Leaflet map.addLayer: attaching an already-attached layer is a no-op
inside Leaflet. -/
def mapAddLayer (m : List Layer) (l : Layer) : List Layer :=
  if l ∈ m then m else m ++ [l]

/-- Leaflet map.removeLayer: detaches the layer wherever it is attached. -/
def mapRemoveLayer (m : List Layer) (l : Layer) : List Layer :=
  m.filter (fun x => decide (x ≠ l))

/-- Leaflet map.hasLayer. -/
def mapHasLayer (m : List Layer) (l : Layer) : Bool :=
  decide (l ∈ m)

/-- FRAWebGIS.toggleLayer (fra_webgis_script.js 327-340): look the layer up
by FRA type; when attaching, addLayer only if not already on the map; when
detaching, removeLayer only if on the map; no layer means no action. -/
def toggleLayerFRA (s : GISState) (fraType : String) (visible : Bool) : GISState :=
  match lookupKey s.layers fraType with
  | none => s
  | some layer =>
    if visible then
      if mapHasLayer s.attached layer then s
      else { s with attached := mapAddLayer s.attached layer }
    else
      if mapHasLayer s.attached layer then
        { s with attached := mapRemoveLayer s.attached layer }
      else s

/-- IndiaLandUseMap.toggleLayer (part_000 321-330): look the layer up by
name; addLayer or removeLayer unconditionally (Leaflet itself makes both
idempotent); no layer means no action. -/
def toggleLayerIndia (s : GISState) (layerName : String) (visible : Bool) : GISState :=
  match lookupKey s.layers layerName with
  | none => s
  | some layer =>
    if visible then { s with attached := mapAddLayer s.attached layer }
    else { s with attached := mapRemoveLayer s.attached layer }

/-- LandUseMap.showLayer (script.js 201-206). -/
def showLayerMVP (s : GISState) (className : String) : GISState :=
  match lookupKey s.layers className with
  | none => s
  | some layer =>
    if mapHasLayer s.attached layer then s
    else { s with attached := mapAddLayer s.attached layer }

/-- LandUseMap.hideLayer (script.js 208-213). -/
def hideLayerMVP (s : GISState) (className : String) : GISState :=
  match lookupKey s.layers className with
  | none => s
  | some layer =>
    if mapHasLayer s.attached layer then
      { s with attached := mapRemoveLayer s.attached layer }
    else s

theorem mapAddLayer_mem (m : List Layer) (l : Layer) : l ∈ mapAddLayer m l := by
  unfold mapAddLayer
  split
  · assumption
  · simp

theorem mapRemoveLayer_not_mem (m : List Layer) (l : Layer) :
    l ∉ mapRemoveLayer m l := by
  intro h
  have := List.of_mem_filter h
  simp at this

theorem mapRemoveLayer_mem_iff (m : List Layer) (l x : Layer) (hx : x ≠ l) :
    x ∈ mapRemoveLayer m l ↔ x ∈ m := by
  unfold mapRemoveLayer
  rw [List.mem_filter]
  simp [hx]

theorem mapAddLayer_mem_iff (m : List Layer) (l x : Layer) (hx : x ≠ l) :
    x ∈ mapAddLayer m l ↔ x ∈ m := by
  unfold mapAddLayer
  split
  · exact Iff.rfl
  · simp [hx]

theorem toggleLayerFRA_none (s : GISState) (cat : String) (b : Bool)
    (h : lookupKey s.layers cat = none) : toggleLayerFRA s cat b = s := by
  simp [toggleLayerFRA, h]

theorem toggleLayerFRA_some_true_mem (s : GISState) (cat : String) (l : Layer)
    (hl : lookupKey s.layers cat = some l) (ha : l ∈ s.attached) :
    toggleLayerFRA s cat true = s := by
  simp [toggleLayerFRA, hl, mapHasLayer, ha]

theorem toggleLayerFRA_some_true_notmem (s : GISState) (cat : String) (l : Layer)
    (hl : lookupKey s.layers cat = some l) (ha : l ∉ s.attached) :
    toggleLayerFRA s cat true = { s with attached := mapAddLayer s.attached l } := by
  simp [toggleLayerFRA, hl, mapHasLayer, ha]

theorem toggleLayerFRA_some_false_mem (s : GISState) (cat : String) (l : Layer)
    (hl : lookupKey s.layers cat = some l) (ha : l ∈ s.attached) :
    toggleLayerFRA s cat false = { s with attached := mapRemoveLayer s.attached l } := by
  simp [toggleLayerFRA, hl, mapHasLayer, ha]

theorem toggleLayerFRA_some_false_notmem (s : GISState) (cat : String) (l : Layer)
    (hl : lookupKey s.layers cat = some l) (ha : l ∉ s.attached) :
    toggleLayerFRA s cat false = s := by
  simp [toggleLayerFRA, hl, mapHasLayer, ha]

theorem showLayerMVP_eq_toggle (s : GISState) (c : String) :
    showLayerMVP s c = toggleLayerFRA s c true := rfl

theorem hideLayerMVP_eq_toggle (s : GISState) (c : String) :
    hideLayerMVP s c = toggleLayerFRA s c false := rfl

theorem toggleLayerFRA_idem (s : GISState) (cat : String) (b : Bool) :
    toggleLayerFRA (toggleLayerFRA s cat b) cat b = toggleLayerFRA s cat b := by
  cases hl : lookupKey s.layers cat with
  | none => rw [toggleLayerFRA_none s cat b hl, toggleLayerFRA_none s cat b hl]
  | some l =>
    cases b with
    | true =>
      by_cases ha : l ∈ s.attached
      · rw [toggleLayerFRA_some_true_mem s cat l hl ha,
          toggleLayerFRA_some_true_mem s cat l hl ha]
      · rw [toggleLayerFRA_some_true_notmem s cat l hl ha]
        exact toggleLayerFRA_some_true_mem _ cat l hl (mapAddLayer_mem _ _)
    | false =>
      by_cases ha : l ∈ s.attached
      · rw [toggleLayerFRA_some_false_mem s cat l hl ha]
        exact toggleLayerFRA_some_false_notmem _ cat l hl (mapRemoveLayer_not_mem _ _)
      · rw [toggleLayerFRA_some_false_notmem s cat l hl ha,
          toggleLayerFRA_some_false_notmem s cat l hl ha]

/-- C6: the visibility toggles are idempotent — a second identical
setVisibility call leaves the state exactly where the first left it, for
FRAWebGIS.toggleLayer and for LandUseMap.showLayer/hideLayer — and
attaching an already-attached layer, or detaching one that is not
attached, changes nothing at all (and, being total functions, raises no
error). -/
theorem c6_set_visibility_idempotent (s : GISState) (cat : String) (b : Bool) :
    toggleLayerFRA (toggleLayerFRA s cat b) cat b = toggleLayerFRA s cat b ∧
    showLayerMVP (showLayerMVP s cat) cat = showLayerMVP s cat ∧
    hideLayerMVP (hideLayerMVP s cat) cat = hideLayerMVP s cat ∧
    (∀ l, lookupKey s.layers cat = some l → l ∈ s.attached →
      toggleLayerFRA s cat true = s ∧ showLayerMVP s cat = s) ∧
    (∀ l, lookupKey s.layers cat = some l → l ∉ s.attached →
      toggleLayerFRA s cat false = s ∧ hideLayerMVP s cat = s) := by
  refine ⟨toggleLayerFRA_idem s cat b, ?_, ?_, ?_, ?_⟩
  · rw [showLayerMVP_eq_toggle, showLayerMVP_eq_toggle]
    exact toggleLayerFRA_idem s cat true
  · rw [hideLayerMVP_eq_toggle, hideLayerMVP_eq_toggle]
    exact toggleLayerFRA_idem s cat false
  · intro l hl ha
    refine ⟨toggleLayerFRA_some_true_mem s cat l hl ha, ?_⟩
    rw [showLayerMVP_eq_toggle]
    exact toggleLayerFRA_some_true_mem s cat l hl ha
  · intro l hl ha
    refine ⟨toggleLayerFRA_some_false_notmem s cat l hl ha, ?_⟩
    rw [hideLayerMVP_eq_toggle]
    exact toggleLayerFRA_some_false_notmem s cat l hl ha

/-- A concrete two-layer state: the IFR layer is attached, the CFR layer is
built but detached; both count elements and checkboxes exist. -/
def exLayerIFR : Layer := ⟨"IFR", [Feature.mk 1 none (some "IFR")]⟩

def exLayerCFR : Layer := ⟨"CFR", [Feature.mk 2 none (some "CFR")]⟩

def exState : GISState :=
  ⟨[("IFR", exLayerIFR), ("CFR", exLayerCFR)], [exLayerIFR],
   [("IFR", 1), ("CFR", 1)], [("ifr", true), ("cfr", true)]⟩

/-- Witness for C6: on the concrete state with the IFR layer attached, a
second toggle changes nothing and re-attaching the attached layer is the
identity. -/
theorem c6_set_visibility_idempotent_witness :
    toggleLayerFRA (toggleLayerFRA exState "IFR" true) "IFR" true =
      toggleLayerFRA exState "IFR" true ∧
    toggleLayerFRA exState "IFR" true = exState :=
  ⟨(c6_set_visibility_idempotent exState "IFR" true).1,
   ((c6_set_visibility_idempotent exState "IFR" true).2.2.2.1 exLayerIFR
      (by decide) (by decide)).1⟩

theorem toggleLayerIndia_none (s : GISState) (cat : String) (b : Bool)
    (h : lookupKey s.layers cat = none) : toggleLayerIndia s cat b = s := by
  simp [toggleLayerIndia, h]

theorem toggleLayerIndia_some_true (s : GISState) (cat : String) (l : Layer)
    (hl : lookupKey s.layers cat = some l) :
    toggleLayerIndia s cat true = { s with attached := mapAddLayer s.attached l } := by
  simp [toggleLayerIndia, hl]

theorem toggleLayerIndia_some_false (s : GISState) (cat : String) (l : Layer)
    (hl : lookupKey s.layers cat = some l) :
    toggleLayerIndia s cat false = { s with attached := mapRemoveLayer s.attached l } := by
  simp [toggleLayerIndia, hl]

/-- C7: toggling a category that has no registered layer (unknown, or not
loaded yet) is a silent no-op in every variant: the whole state is
returned unchanged, whichever flag is passed, and no error is raised. -/
theorem c7_unknown_category_noop (s : GISState) (cat : String) (b : Bool)
    (h : lookupKey s.layers cat = none) :
    toggleLayerFRA s cat b = s ∧ toggleLayerIndia s cat b = s ∧
    showLayerMVP s cat = s ∧ hideLayerMVP s cat = s := by
  refine ⟨toggleLayerFRA_none s cat b h, toggleLayerIndia_none s cat b h, ?_, ?_⟩
  · rw [showLayerMVP_eq_toggle]
    exact toggleLayerFRA_none s cat true h
  · rw [hideLayerMVP_eq_toggle]
    exact toggleLayerFRA_none s cat false h

/-- Witness for C7: the concrete state registers no layer for the
category "water", so both toggles leave it untouched. -/
theorem c7_unknown_category_noop_witness :
    toggleLayerFRA exState "water" true = exState ∧
    toggleLayerIndia exState "water" false = exState :=
  ⟨(c7_unknown_category_noop exState "water" true (by decide)).1,
   (c7_unknown_category_noop exState "water" false (by decide)).2.1⟩

theorem toggleLayerFRA_frame (s : GISState) (cat : String) (b : Bool) :
    (toggleLayerFRA s cat b).layers = s.layers ∧
    (toggleLayerFRA s cat b).counts = s.counts ∧
    (toggleLayerFRA s cat b).checkboxes = s.checkboxes := by
  unfold toggleLayerFRA
  split
  · exact ⟨rfl, rfl, rfl⟩
  · split <;> split <;> exact ⟨rfl, rfl, rfl⟩

theorem toggleLayerIndia_frame (s : GISState) (cat : String) (b : Bool) :
    (toggleLayerIndia s cat b).layers = s.layers ∧
    (toggleLayerIndia s cat b).counts = s.counts ∧
    (toggleLayerIndia s cat b).checkboxes = s.checkboxes := by
  unfold toggleLayerIndia
  split
  · exact ⟨rfl, rfl, rfl⟩
  · split <;> exact ⟨rfl, rfl, rfl⟩

theorem toggleLayerFRA_attached_other (s : GISState) (cat : String) (b : Bool)
    (l' : Layer) (hne : ∀ l, lookupKey s.layers cat = some l → l' ≠ l) :
    l' ∈ (toggleLayerFRA s cat b).attached ↔ l' ∈ s.attached := by
  cases hl : lookupKey s.layers cat with
  | none => rw [toggleLayerFRA_none s cat b hl]
  | some l =>
    have hne' := hne l hl
    cases b with
    | true =>
      by_cases ha : l ∈ s.attached
      · rw [toggleLayerFRA_some_true_mem s cat l hl ha]
      · rw [toggleLayerFRA_some_true_notmem s cat l hl ha]
        exact mapAddLayer_mem_iff _ _ _ hne'
    | false =>
      by_cases ha : l ∈ s.attached
      · rw [toggleLayerFRA_some_false_mem s cat l hl ha]
        exact mapRemoveLayer_mem_iff _ _ _ hne'
      · rw [toggleLayerFRA_some_false_notmem s cat l hl ha]

theorem toggleLayerIndia_attached_other (s : GISState) (cat : String) (b : Bool)
    (l' : Layer) (hne : ∀ l, lookupKey s.layers cat = some l → l' ≠ l) :
    l' ∈ (toggleLayerIndia s cat b).attached ↔ l' ∈ s.attached := by
  cases hl : lookupKey s.layers cat with
  | none => rw [toggleLayerIndia_none s cat b hl]
  | some l =>
    have hne' := hne l hl
    cases b with
    | true =>
      rw [toggleLayerIndia_some_true s cat l hl]
      exact mapAddLayer_mem_iff _ _ _ hne'
    | false =>
      rw [toggleLayerIndia_some_false s cat l hl]
      exact mapRemoveLayer_mem_iff _ _ _ hne'

/-- C9: a visibility toggle changes at most the attachment of the one
targeted category's layer.  In all three variants the registered layer
table, every layer's feature membership (carried inside that table) and
the per-category counts are untouched, and — provided each registered
layer is tagged with its own key, as every layer built by the processing
code is — the attachment of every other category's layer is unchanged. -/
theorem c9_toggle_frame_effect (s : GISState) (cat : String) (b : Bool) :
    (toggleLayerFRA s cat b).layers = s.layers ∧
    (toggleLayerFRA s cat b).counts = s.counts ∧
    (toggleLayerIndia s cat b).layers = s.layers ∧
    (toggleLayerIndia s cat b).counts = s.counts ∧
    (showLayerMVP s cat).layers = s.layers ∧
    (showLayerMVP s cat).counts = s.counts ∧
    (hideLayerMVP s cat).layers = s.layers ∧
    (hideLayerMVP s cat).counts = s.counts ∧
    ((∀ kv ∈ s.layers, kv.2.cat = kv.1) →
      ∀ cat' l', cat' ≠ cat → lookupKey s.layers cat' = some l' →
        (l' ∈ (toggleLayerFRA s cat b).attached ↔ l' ∈ s.attached) ∧
        (l' ∈ (toggleLayerIndia s cat b).attached ↔ l' ∈ s.attached) ∧
        (l' ∈ (showLayerMVP s cat).attached ↔ l' ∈ s.attached) ∧
        (l' ∈ (hideLayerMVP s cat).attached ↔ l' ∈ s.attached)) := by
  refine ⟨(toggleLayerFRA_frame s cat b).1, (toggleLayerFRA_frame s cat b).2.1,
    (toggleLayerIndia_frame s cat b).1, (toggleLayerIndia_frame s cat b).2.1,
    (toggleLayerFRA_frame s cat true).1, (toggleLayerFRA_frame s cat true).2.1,
    (toggleLayerFRA_frame s cat false).1, (toggleLayerFRA_frame s cat false).2.1,
    ?_⟩
  intro hwf cat' l' hc hl'
  have hne : ∀ l, lookupKey s.layers cat = some l → l' ≠ l := by
    intro l hl heq
    subst heq
    have h1 : l'.cat = cat := hwf (cat, l') (lookupKey_mem_pair _ _ _ hl)
    have h2 : l'.cat = cat' := hwf (cat', l') (lookupKey_mem_pair _ _ _ hl')
    exact hc (h2 ▸ h1)
  exact ⟨toggleLayerFRA_attached_other s cat b l' hne,
    toggleLayerIndia_attached_other s cat b l' hne,
    toggleLayerFRA_attached_other s cat true l' hne,
    toggleLayerFRA_attached_other s cat false l' hne⟩

/-- Witness for C9: detaching the IFR layer of the concrete state leaves
the layer table and counts as they were and does not change whether the
CFR layer is attached. -/
theorem c9_toggle_frame_effect_witness :
    (toggleLayerFRA exState "IFR" false).layers = exState.layers ∧
    (exLayerCFR ∈ (toggleLayerFRA exState "IFR" false).attached ↔
      exLayerCFR ∈ exState.attached) :=
  ⟨(c9_toggle_frame_effect exState "IFR" false).1,
   ((c9_toggle_frame_effect exState "IFR" false).2.2.2.2.2.2.2.2
      (by decide) "CFR" exLayerCFR (by decide) (by decide)).1⟩

/-- A JSON body as the reload handlers inspect it: an optional explicit
error field and an optional features array (absence models a payload with
no features key). -/
structure Payload where
  err : Option String
  feats : Option (List Feature)
  deriving DecidableEq, Repr

/-- The result of one fetch as seen by a response handler: either the
request rejected before a response (network failure), or it produced a
response with its response.ok flag and a parsed JSON payload. -/
inductive FetchResult where
  | netFail : FetchResult
  | ok : Bool → Payload → FetchResult
  deriving DecidableEq, Repr

/-- Whether the handler finished on its success path or inside its catch
block (which only logs/alerts). -/
inductive LoadOutcome where
  | success : LoadOutcome
  | failure : LoadOutcome
  deriving DecidableEq, Repr

/-- Update of the count-<key> DOM element performed only when the element
exists (part_000 282-285): entries keep their key, only the matching
entry's value changes; a key with no element is untouched. -/
def setCount : List (String × Nat) → String → Nat → List (String × Nat)
  | [], _, _ => []
  | (k0, v0) :: rest, k, n =>
    (if k0 = k then (k0, n) else (k0, v0)) :: setCount rest k n

/-- First phase of processData / processClaimsData (part_000 246-252,
fra_webgis_script.js 245-251): every tracked layer that is on the map is
detached, then this.layers is reset to the empty object. -/
def clearTrackedLayers (s : GISState) : GISState :=
  { s with
    attached := s.attached.filter (fun l => decide (l ∉ s.layers.map Prod.snd)),
    layers := [] }

/-- Body of the per-bucket loop of IndiaLandUseMap.processData (part_000
266-287): for a non-empty bucket, build the L.geoJSON layer, register it
under its class, attach it to the map when the layer-<class> checkbox
exists and is checked, and write the bucket size into the count-<class>
element when that element exists; an empty bucket does nothing. -/
def processDataIndiaStep (st : GISState) (kg : String × List Feature) : GISState :=
  if kg.2.length > 0 then
    if lookupKey st.checkboxes kg.1 = some true then
      { st with
        layers := st.layers ++ [(kg.1, ⟨kg.1, kg.2⟩)],
        attached := mapAddLayer st.attached ⟨kg.1, kg.2⟩,
        counts := setCount st.counts kg.1 kg.2.length }
    else
      { st with
        layers := st.layers ++ [(kg.1, ⟨kg.1, kg.2⟩)],
        counts := setCount st.counts kg.1 kg.2.length }
  else st

/-- IndiaLandUseMap.processData (part_000 245-288) on a payload whose
features array is fs: clear the tracked layers, group by class, then run
the per-bucket loop over the buckets in insertion order. -/
def processDataIndia (s : GISState) (fs : List Feature) : GISState :=
  (groupIndia fs).foldl processDataIndiaStep (clearTrackedLayers s)

/-- FRAWebGIS.processClaimsData (fra_webgis_script.js 242-290) on a payload
whose features array is fs: clear the tracked layers, group by FRA type,
then for each non-empty bucket build a layer, register it, and attach it
when the layer-<type lowercased> checkbox exists and is checked.  No count
elements are written. -/
def processClaimsFRA (s : GISState) (fs : List Feature) : GISState :=
  (groupFRA fs).foldl
    (fun st kg =>
      if kg.2.length > 0 then
        let layer : Layer := ⟨kg.1, kg.2⟩
        let st1 := { st with layers := st.layers ++ [(kg.1, layer)] }
        if lookupKey st1.checkboxes kg.1.toLower = some true then
          { st1 with attached := mapAddLayer st1.attached layer }
        else st1
      else st)
    (clearTrackedLayers s)

/-- IndiaLandUseMap.loadData (part_000 226-243) applied to the result of
its fetch.  The script never reads response.ok.  A payload with an error
field throws before processData runs.  A payload without a features array
reaches processData, which detaches and discards every tracked layer and
only then crashes (TypeError on geojsonData.features.forEach of
undefined); the exception lands in loadData's catch block, so the call
ends in failure with the layers already cleared. -/
def loadDataIndia (s : GISState) (r : FetchResult) : GISState × LoadOutcome :=
  match r with
  | .netFail => (s, .failure)
  | .ok _ p =>
    match p.err with
    | some _ => (s, .failure)
    | none =>
      match p.feats with
      | none => (clearTrackedLayers s, .failure)
      | some fs => (processDataIndia s fs, .success)

/-- FRAWebGIS.loadClaims (fra_webgis_script.js 213-240) applied to the
result of its fetch: it checks response.ok, then the explicit error field,
then that data.features is an array, all before any layer is touched. -/
def loadClaimsFRA (s : GISState) (r : FetchResult) : GISState × LoadOutcome :=
  match r with
  | .netFail => (s, .failure)
  | .ok httpOk p =>
    if httpOk = false then (s, .failure)
    else
      match p.err with
      | some _ => (s, .failure)
      | none =>
        match p.feats with
        | none => (s, .failure)
        | some fs => (processClaimsFRA s fs, .success)

/-- The state C2's failing input starts from: one water layer registered
and attached, its count element showing 1. -/
def c2Layer : Layer := ⟨"water", [Feature.mk 1 (some "water") none]⟩

def c2State : GISState :=
  ⟨[("water", c2Layer)], [c2Layer], [("water", 1)], [("water", true)]⟩

/-- C2: the FRA reload handler leaves the state untouched on each failure
mode — network failure, non-ok HTTP status, explicit error field, missing
features array — but IndiaLandUseMap.loadData on a payload with no
features array (and no error field) detaches and discards its layers
before failing: from c2State the registry and the attachment set come back
empty, a half-updated state, contradicting the claim for the India
handler.  Fetch failure and explicit-error payloads do leave the India
handler's state untouched. -/
theorem c2_failed_reload_clears_india :
    loadDataIndia c2State (.ok true ⟨none, none⟩) =
      ({ c2State with layers := [], attached := [] }, .failure) ∧
    c2State.layers ≠ [] ∧ c2State.attached ≠ [] ∧
    loadDataIndia c2State .netFail = (c2State, .failure) ∧
    loadDataIndia c2State (.ok true ⟨some "no data", none⟩) = (c2State, .failure) ∧
    loadClaimsFRA c2State .netFail = (c2State, .failure) ∧
    loadClaimsFRA c2State (.ok false ⟨none, some []⟩) = (c2State, .failure) ∧
    loadClaimsFRA c2State (.ok true ⟨some "no data", some []⟩) = (c2State, .failure) ∧
    loadClaimsFRA c2State (.ok true ⟨none, none⟩) = (c2State, .failure) := by
  decide

/-- Cooperative interleaving of two overlapping IndiaLandUseMap.loadData
calls.  Nothing in loadData records a request generation, cancels the
in-flight fetch, or re-checks this.currentFilters when a response lands,
so each response is handed to the same unconditional processing code in
arrival order: first the response that arrives first, then the other one,
whatever requests they answer. -/
def reloadRace (s : GISState) (firstArrived secondArrived : FetchResult) :
    GISState × LoadOutcome :=
  loadDataIndia (loadDataIndia s firstArrived).1 secondArrived

/-- The idle starting state of the C3 race: no layers yet, both checkboxes
checked and both count elements present. -/
def c3State : GISState :=
  ⟨[], [], [("water", 0), ("urban", 0)], [("water", true), ("urban", true)]⟩

/-- The payload answering the older request S1 (one water feature) and the
payload answering the newer request S2 (one urban feature). -/
def c3PayloadS1 : Payload := ⟨none, some [Feature.mk 1 (some "water") none]⟩

def c3PayloadS2 : Payload := ⟨none, some [Feature.mk 2 (some "urban") none]⟩

/-- C3: with reloads issued for S1 then S2 and S2's response arriving
first, the handler applies S1's late response last, so the final visible
state holds S1's water layer — none of S2's urban layer survives, and the
urban count element is left showing S2's stale 1 — arrival order wins,
not request order, contradicting last-request-wins. -/
theorem c3_out_of_order_response_wins :
    (reloadRace c3State (.ok true c3PayloadS2) (.ok true c3PayloadS1)).1.layers =
      [("water", Layer.mk "water" [Feature.mk 1 (some "water") none])] ∧
    lookupKey (reloadRace c3State (.ok true c3PayloadS2)
        (.ok true c3PayloadS1)).1.counts "water" = some 1 ∧
    lookupKey (reloadRace c3State (.ok true c3PayloadS2)
        (.ok true c3PayloadS1)).1.counts "urban" = some 1 ∧
    lookupKey (reloadRace c3State (.ok true c3PayloadS2)
        (.ok true c3PayloadS1)).1.layers "urban" = none := by
  decide

theorem lookupKey_setCount_ne (counts : List (String × Nat)) (k c : String)
    (n : Nat) (h : k ≠ c) :
    lookupKey (setCount counts k n) c = lookupKey counts c := by
  induction counts with
  | nil => rfl
  | cons kv rest ih =>
    obtain ⟨k0, v0⟩ := kv
    by_cases hk : k0 = k
    · subst hk
      have h0 : k0 ≠ c := h
      have e1 : setCount ((k0, v0) :: rest) k0 n = (k0, n) :: setCount rest k0 n := by
        simp [setCount]
      have e2 : lookupKey ((k0, n) :: setCount rest k0 n) c =
          lookupKey (setCount rest k0 n) c := by
        simp [lookupKey, h0]
      have e3 : lookupKey ((k0, v0) :: rest) c = lookupKey rest c := by
        simp [lookupKey, h0]
      rw [e1, e2, e3]
      exact ih
    · have e1 : setCount ((k0, v0) :: rest) k n = (k0, v0) :: setCount rest k n := by
        simp [setCount, hk]
      rw [e1]
      by_cases hc : k0 = c
      · subst hc
        simp [lookupKey]
      · have e2 : lookupKey ((k0, v0) :: setCount rest k n) c =
            lookupKey (setCount rest k n) c := by
          simp [lookupKey, hc]
        have e3 : lookupKey ((k0, v0) :: rest) c = lookupKey rest c := by
          simp [lookupKey, hc]
        rw [e2, e3]
        exact ih

theorem processDataIndiaStep_counts_other (st : GISState)
    (kg : String × List Feature) (c : String) (h : kg.1 ≠ c) :
    lookupKey (processDataIndiaStep st kg).counts c = lookupKey st.counts c := by
  unfold processDataIndiaStep
  split
  · split <;> exact lookupKey_setCount_ne _ _ _ _ h
  · rfl

theorem indiaFold_counts_other (c : String) (groups : List (String × List Feature)) :
    ∀ (st : GISState), (∀ kg ∈ groups, kg.1 ≠ c) →
      lookupKey (groups.foldl processDataIndiaStep st).counts c =
        lookupKey st.counts c := by
  induction groups with
  | nil => intro st _; rfl
  | cons kg groups ih =>
    intro st h
    rw [List.foldl_cons,
      ih _ (fun kg' hk => h kg' (List.mem_cons_of_mem _ hk))]
    exact processDataIndiaStep_counts_other st kg c (h kg (List.mem_cons_self _ _))

/-- C10: after a successful India reload, the per-category count elements
are written only for categories present in the newly fetched data: any
category whose key does not occur in the new grouping — in particular one
that had features before the reload but has none now — keeps its
previously displayed count value instead of being reset to 0. -/
theorem c10_stale_count_retained (s : GISState) (fs : List Feature) (c : String)
    (hc : c ∉ (groupIndia fs).map Prod.fst) :
    lookupKey (processDataIndia s fs).counts c = lookupKey s.counts c := by
  unfold processDataIndia
  rw [indiaFold_counts_other c (groupIndia fs) _ ?_]
  · rfl
  · intro kg hk heq
    exact hc (heq ▸ List.mem_map_of_mem Prod.fst hk)

/-- Witness for C10: from c2State — whose water layer holds one feature
and whose count element shows 1 — reloading data that contains only an
urban feature leaves the water count element still showing 1, even though
the water layer is gone. -/
theorem c10_stale_count_retained_witness :
    lookupKey (processDataIndia c2State [Feature.mk 9 (some "urban") none]).counts
      "water" = some 1 := by
  rw [c10_stale_count_retained c2State [Feature.mk 9 (some "urban") none] "water"
    (by decide)]
  rfl

/-- A claim detail record as /api/claim/<id> returns it; err models an
explicit error field in the JSON body. -/
structure DetailRecord where
  claim_id : String
  err : Option String
  deriving DecidableEq, Repr

/-- The result of one detail fetch: rejection before a response, or a
parsed record. -/
inductive DetailFetch where
  | netFail : DetailFetch
  | ok : DetailRecord → DetailFetch
  deriving DecidableEq, Repr

/-- Observable state of the claim-details flow: the URLs fetched so far and
the record currently shown in the claim modal. -/
structure DetailState where
  fetchLog : List String
  displayed : Option DetailRecord
  deriving DecidableEq, Repr

/-- FRAWebGIS.showClaimDetails (fra_webgis_script.js 501-517): every call
begins by fetching /api/claim/<claimId> — no cache is consulted and none is
written.  A response without an error field is displayed; an error field or
a network failure lands in the catch block, which only reports. -/
def showClaimDetails (s : DetailState) (claimId : String) (r : DetailFetch) :
    DetailState :=
  let s1 : DetailState :=
    { s with fetchLog := s.fetchLog ++ ["/api/claim/" ++ claimId] }
  match r with
  | .netFail => s1
  | .ok d =>
    match d.err with
    | some _ => s1
    | none => { s1 with displayed := some d }

/-- C4 counterexample: two sequential resolves of the same claim id, both
answered successfully, issue two network fetches — the fetch log holds the
same URL twice, not once, because nothing is cached. -/
theorem c4_resolve_twice_counterexample :
    (showClaimDetails
        (showClaimDetails ⟨[], none⟩ "FRA-0001" (.ok ⟨"FRA-0001", none⟩))
        "FRA-0001" (.ok ⟨"FRA-0001", none⟩)).fetchLog =
      ["/api/claim/FRA-0001", "/api/claim/FRA-0001"] ∧
    (showClaimDetails
        (showClaimDetails ⟨[], none⟩ "FRA-0001" (.ok ⟨"FRA-0001", none⟩))
        "FRA-0001" (.ok ⟨"FRA-0001", none⟩)).fetchLog.length ≠ 1 := by
  decide

/-- C4 (amended): showClaimDetails keeps no cache at all: every call issues
its own fetch of /api/claim/<id>, so two sequential resolves of one id
issue exactly two fetches (never one); and — as the claim says — a failed
resolve (network failure or an error payload) stores nothing: the
displayed record is unchanged, so a later retry is possible and behaves
like a first call. -/
theorem c4_every_resolve_fetches (s : DetailState) (claimId cid e : String)
    (r1 r2 : DetailFetch) :
    (showClaimDetails (showClaimDetails s claimId r1) claimId r2).fetchLog =
      s.fetchLog ++ ["/api/claim/" ++ claimId, "/api/claim/" ++ claimId] ∧
    (showClaimDetails s claimId .netFail).displayed = s.displayed ∧
    (showClaimDetails s claimId (.ok ⟨cid, some e⟩)).displayed = s.displayed := by
  refine ⟨?_, rfl, rfl⟩
  cases r1 with
  | netFail =>
    cases r2 with
    | netFail => simp [showClaimDetails]
    | ok d =>
      cases hd : d.err <;> simp [showClaimDetails, hd]
  | ok d1 =>
    cases hd1 : d1.err with
    | none =>
      cases r2 with
      | netFail => simp [showClaimDetails, hd1]
      | ok d =>
        cases hd : d.err <;> simp [showClaimDetails, hd1, hd]
    | some e1 =>
      cases r2 with
      | netFail => simp [showClaimDetails, hd1]
      | ok d =>
        cases hd : d.err <;> simp [showClaimDetails, hd1, hd]

/-- The eight filter control values FRAWebGIS.applyFilters reads from the
DOM (fra_webgis_script.js 344-353), in source order. -/
structure FilterInputs where
  state : String
  district : String
  village : String
  fra_type : String
  status : String
  tribal_community : String
  claim_area_min : String
  claim_area_max : String
  deriving DecidableEq, Repr

/-- FRAWebGIS.applyFilters (fra_webgis_script.js 342-362): collect the
(field, value) pairs of this.currentFilters, then keep only the entries
whose value is truthy — for the string values read from the controls,
exactly the non-empty ones. -/
def applyFiltersFRA (v : FilterInputs) : List (String × String) :=
  ([("state", v.state), ("district", v.district), ("village", v.village),
    ("fra_type", v.fra_type), ("status", v.status),
    ("tribal_community", v.tribal_community),
    ("claim_area_min", v.claim_area_min),
    ("claim_area_max", v.claim_area_max)]).filter
    fun kv => decide (kv.2 ≠ "")

/-- C5: applyFilters strips every empty value, so each field present in the
resulting snapshot has a non-empty value; and on the spec's own example —
all controls blank except district = X — the snapshot is exactly the single
pair district maps to X. -/
theorem c5_apply_filters_strips_empty (v : FilterInputs) :
    (∀ kv ∈ applyFiltersFRA v, kv.2 ≠ "") ∧
    applyFiltersFRA ⟨"", "X", "", "", "", "", "", ""⟩ = [("district", "X")] := by
  constructor
  · intro kv hkv
    have := List.of_mem_filter hkv
    simpa using this
  · decide

/-- Witness for C5: the theorem applied to the spec's example inputs; the
district entry of the computed snapshot indeed has a non-empty value. -/
theorem c5_apply_filters_strips_empty_witness :
    ("district", "X").2 ≠ "" ∧
    applyFiltersFRA ⟨"", "X", "", "", "", "", "", ""⟩ = [("district", "X")] :=
  ⟨(c5_apply_filters_strips_empty ⟨"", "X", "", "", "", "", "", ""⟩).1
      ("district", "X")
      (by rw [(c5_apply_filters_strips_empty ⟨"", "X", "", "", "", "", "", ""⟩).2]
          exact List.mem_singleton_self _),
   (c5_apply_filters_strips_empty ⟨"", "X", "", "", "", "", "", ""⟩).2⟩
